import Mathlib

/-!
Verification of the construct scenario harness.

Shallow embedding of the core of the repository:
data model (src/construct/models.py), the clip-chaining control loop of
ScenarioRunner.run (src/construct/runner.py), the frame-synchronization
state of OdysseySession (src/construct/session.py), the exact-path
evaluator (src/construct/evaluators/exact.py) and the report aggregator
(src/construct/report.py).

Modelling conventions:
  - Python floats (timeout_s, latency_ms, cost_usd, scores) become rationals.
  - Scalar parameter values of an Action are modelled by their canonical
    textual form; a Python dict becomes an association list with distinct
    keys, and dict equality becomes extensional lookup equality.
  - Frames (numpy arrays) are modelled by opaque natural-number identifiers.
  - Exceptions become values: a fallible call carries an optional message,
    and the runner, which in the source never lets an exception escape, is
    a total function into ScenarioResult.
  - Wall-clock time is explicit: each external call (simulate-job clip,
    VLM decision) has a duration, and the runner accumulates elapsed time
    exactly where the source reads the monotonic clock.
-/

namespace Construct

/-- TerminationReason from models.py: why a scenario run ended. -/
inductive TerminationReason where
  | DONE
  | MAX_STEPS
  | TIMEOUT
  | ERROR
deriving DecidableEq, Repr

/-- Action from models.py: a single robot action (tool call). Parameter
values are modelled by their canonical textual form. -/
structure Action where
  name : String
  parameters : List (String × String) := []
  raw_text : String := ""
deriving DecidableEq, Repr

/-- Python dict equality on parameter maps: the same keys mapping to the
same values, regardless of insertion order. -/
def dictEq (a b : List (String × String)) : Bool :=
  a.all (fun p => b.lookup p.1 == some p.2) && b.all (fun p => a.lookup p.1 == some p.2)

/-- Scenario from models.py, restricted to the fields the engine reads.
Defaults follow the source: max_steps = 20, timeout_s = 120. -/
structure Scenario where
  name : String
  prompt : String
  expected_actions : List Action := []
  portrait : Bool := true
  max_steps : ℕ := 20
  timeout_s : ℚ := 120
deriving DecidableEq, Repr

/-- StepResult from models.py: the outcome of a single simulation step. -/
structure StepResult where
  step_index : ℕ
  action : Action
  reasoning : String := ""
  latency_ms : ℚ := 0
  cost_usd : ℚ := 0
deriving DecidableEq, Repr

/-- One stored entry of ScenarioResult.eval_scores: the dict
with keys score and passed that ScenarioRunner.run writes (runner.py,
the evaluator phase); the free-form details value is not modelled. -/
structure StoredScore where
  score : ℚ
  passed : Bool
deriving DecidableEq, Repr

/-- ScenarioResult from models.py: the complete result of running a
scenario. eval_scores, a Python dict keyed by evaluator score name, is an
association list with insertion order. Note the source default of
termination_reason is TerminationReason.DONE. -/
structure ScenarioResult where
  scenario : Scenario
  steps : List StepResult := []
  termination_reason : TerminationReason := TerminationReason.DONE
  error : Option String := none
  eval_scores : List (String × StoredScore) := []
  total_latency_ms : ℚ := 0
  total_cost_usd : ℚ := 0
deriving DecidableEq, Repr

/-- ScenarioResult.actions property from models.py. -/
def ScenarioResult.actions (r : ScenarioResult) : List Action :=
  r.steps.map (fun s => s.action)

/-- ScenarioResult.passed property from models.py: with no eval scores the
run passed iff it terminated DONE; otherwise iff every stored score has
passed set. -/
def ScenarioResult.passed (r : ScenarioResult) : Bool :=
  if r.eval_scores.isEmpty then
    decide (r.termination_reason = TerminationReason.DONE)
  else
    r.eval_scores.all (fun p => p.2.passed)

/-- StructuredReport from report.py: collected scenario results. -/
structure StructuredReport where
  results : List ScenarioResult

/-- StructuredReport.all_passed from report.py. -/
def StructuredReport.all_passed (rep : StructuredReport) : Bool :=
  rep.results.all (fun r => r.passed)

/-- EvalScore from evaluator.py, with the details the exact-path evaluator
produces (evaluators/exact.py): either the length-mismatch record or the
list of positional mismatches (step index, expected, actual). -/
inductive ExactDetails where
  | length_mismatch (expected_count actual_count : ℕ)
  | mismatches (items : List (ℕ × Action × Action))
deriving DecidableEq, Repr

/-- EvalScore from evaluator.py as the exact-path evaluator builds it. -/
structure EvalScore where
  name : String
  score : ℚ
  passed : Bool
  details : ExactDetails
deriving DecidableEq, Repr

/-- One positional comparison of ExactPathEvaluator.evaluate: names must
match and, when parameter checking is enabled, the parameter dicts must be
equal. -/
def actionMatches (check_parameters : Bool) (exp act : Action) : Bool :=
  (exp.name == act.name) && (!check_parameters || dictEq exp.parameters act.parameters)

/-- ExactPathEvaluator.evaluate from evaluators/exact.py. -/
def ExactPathEvaluator.evaluate (check_parameters : Bool) (scenario : Scenario)
    (result : ScenarioResult) : EvalScore :=
  let expected := scenario.expected_actions
  let actual := result.actions
  if expected.length ≠ actual.length then
    { name := "exact_path", score := 0, passed := false,
      details := ExactDetails.length_mismatch expected.length actual.length }
  else
    let pairs := expected.zip actual
    let matchCount := (pairs.filter (fun p => actionMatches check_parameters p.1 p.2)).length
    let mis := (pairs.enum.filter
        (fun p => !actionMatches check_parameters p.2.1 p.2.2)).map
        (fun p => (p.1, p.2.1, p.2.2))
    let score : ℚ := if expected.isEmpty then 1 else (matchCount : ℚ) / (expected.length : ℚ)
    { name := "exact_path", score := score, passed := decide (score = 1),
      details := ExactDetails.mismatches mis }

/-! Environment session (session.py): OdysseySession keeps the last
delivered frame and an asyncio.Event. interact clears the event before the
command is sent; the video-frame callback stores the frame and sets the
event; wait_for_frame suspends until the event is set and returns the
stored frame. The session is modelled as a state machine over the ordered
trace of these two state-changing occurrences. -/

/-- Mutable state of OdysseySession: the retained last frame and the
frame-arrival event flag. -/
structure SessionState where
  frame : Option ℕ := none
  frame_event : Bool := false
deriving DecidableEq, Repr

/-- The two occurrences that change OdysseySession frame state: a call to
interact (which clears the event before sending the command), and the
_on_video_frame callback delivering frame data. -/
inductive SessionEvent where
  | interact
  | frameArrive (data : ℕ)
deriving DecidableEq, Repr

/-- State transition of OdysseySession: interact clears the event flag
(session.py OdysseySession.interact); a frame delivery overwrites the
stored frame and sets the flag (OdysseySession._on_video_frame). -/
def OdysseySession.step (s : SessionState) : SessionEvent → SessionState
  | SessionEvent.interact => { s with frame_event := false }
  | SessionEvent.frameArrive d => { frame := some d, frame_event := true }

/-- Replay an ordered trace of session events from a starting state. -/
def OdysseySession.replay (s : SessionState) (evs : List SessionEvent) : SessionState :=
  evs.foldl OdysseySession.step s

/-- OdysseySession.wait_for_frame, observed at a point of the trace: it
returns the retained frame when the event flag is set, and suspends (no
value yet) otherwise. -/
def OdysseySession.wait_for_frame (s : SessionState) : Option ℕ :=
  if s.frame_event then s.frame else none

/-- Data of the most recent frame delivery in a trace (none when the
trace delivers no frame). -/
def lastFrameData (evs : List SessionEvent) : Option ℕ :=
  evs.foldl (fun acc e =>
    match e with
    | SessionEvent.frameArrive d => some d
    | SessionEvent.interact => acc) none

/-! Scenario runner (runner.py): ScenarioRunner.run drives the
simulate-clip / VLM decision loop. External behaviour is a parameter of
the run: what each simulate-job clip does (including the video download
and last-frame extraction that produce the observation), what each VLM
decision call does, and whether the optional per-step observer raises. -/

/-- VLMResponse from vlm.py. -/
structure VLMResponse where
  action : Action
  done : Bool := false
  reasoning : String := ""
  cost_usd : ℚ := 0
  latency_ms : ℚ := 0
deriving DecidableEq, Repr

/-- Behaviour of one VLM decision call (VLMBackend.decide): the response
it would produce, how long it would take, and whether it raises instead.
ScenarioRunner.run wraps the call in asyncio.wait_for with the remaining
budget, so the call times out when duration exceeds that bound. -/
structure VLMCall where
  resp : VLMResponse
  duration : ℚ := 0
  raises : Option String := none

/-- Behaviour of one environment clip: ScenarioRunner._run_clip submits a
simulate job and polls it to completion with no timeout bound, then the
video is downloaded and its last frame extracted. failed/error_message
mirror SimulationJobStatus.FAILED and job.error_message; duration is the
wall-clock time the whole clip (submission, polling, download, extraction)
consumes; frame is the extracted observation. -/
structure ClipOutcome where
  failed : Bool := false
  error_message : String := ""
  duration : ℚ := 0
  frame : ℕ := 0

/-- Message of the RuntimeError that _run_clip raises for a FAILED job:
job.error_message or the fallback "Simulation job failed" (Python `or`
takes the fallback exactly when the message is empty). -/
def runClipMsg (c : ClipOutcome) : String :=
  if c.error_message = "" then "Simulation job failed" else c.error_message

/-- One entry of the run's suspension trace: each external call the
control loop awaits, with the explicit timeout bound the source passes to
it (none when the source passes no bound) and, for VLM calls, the elapsed
wall-clock at the moment of the call. -/
inductive TraceEntry where
  | clipCall (bound : Option ℚ)
  | vlmCall (bound : Option ℚ) (elapsedAt : ℚ)
deriving DecidableEq, Repr

/-- An evaluator as the runner consumes it (evaluator.py Evaluator
protocol): from scenario and result to an EvalScore, or none when the
evaluate call raises (the runner logs and skips it). -/
def EvaluatorFn : Type :=
  Scenario → ScenarioResult → Option EvalScore

/-- One run of ScenarioRunner.run: the scenario together with the
behaviour of the external collaborators during this run. -/
structure RunConfig where
  scenario : Scenario
  clips : ℕ → ClipOutcome
  vlm : ℕ → VLMCall
  on_step : ℕ → Option String := fun _ => none
  evals : List EvaluatorFn := []

/-- Everything a run produces: the ScenarioResult the caller receives, the
total elapsed wall-clock, and the suspension trace. -/
structure RunOutput where
  result : ScenarioResult
  elapsed : ℚ
  trace : List TraceEntry

/-- The freshly initialized result of runner.py line 78:
ScenarioResult(scenario=scenario) with every other field at its models.py
default - in particular termination_reason defaults to DONE. -/
def ScenarioResult.fresh (s : Scenario) : ScenarioResult :=
  { scenario := s }

/-- Python dict assignment result.eval_scores[key] = value: replaces the
value in place when the key exists, appends otherwise. -/
def insertScore (m : List (String × StoredScore)) (key : String) (v : StoredScore) :
    List (String × StoredScore) :=
  if m.any (fun p => p.1 == key) then
    m.map (fun p => if p.1 == key then (key, v) else p)
  else
    m ++ [(key, v)]

/-- The evaluator phase at the end of ScenarioRunner.run: each evaluator
runs in order against the (scenario, result so far); a score is stored
under the score's name; an evaluator that raises is logged and skipped. -/
def runEvals (evals : List EvaluatorFn) (r : ScenarioResult) : ScenarioResult :=
  evals.foldl (fun acc ev =>
    match ev acc.scenario acc with
    | some s => { acc with eval_scores := insertScore acc.eval_scores s.name ⟨s.score, s.passed⟩ }
    | none => acc) r

/-- The control loop of ScenarioRunner.run (runner.py lines 93-136):
`for step_idx in range(scenario.max_steps)` with fuel counting the
remaining iterations. Each iteration recomputes remaining = timeout_s -
elapsed and exits TIMEOUT when it is non-positive; bounds the VLM call by
remaining (a late response raises asyncio.TimeoutError, caught at top
level as TIMEOUT, and a raising call is caught as ERROR); appends the
StepResult and accumulates totals; calls the observer (whose exception is
caught at top level as ERROR); exits DONE on the done signal; otherwise
runs the next clip with no timeout bound (a FAILED job raises, caught as
ERROR). Exhausted fuel is the for-else branch: MAX_STEPS. The current
observation frame is threaded through the loop as in the source (each
clip replaces it); the modelled oracle behaviour is indexed by the step
counter, of which the frame passed to decide is a function. -/
def runLoop (cfg : RunConfig) :
    ℕ → ℕ → ℚ → ℕ → ScenarioResult → List TraceEntry → RunOutput
  | 0, _, elapsed, _, acc, trace =>
      ⟨{ acc with termination_reason := TerminationReason.MAX_STEPS }, elapsed, trace⟩
  | fuel + 1, step_idx, elapsed, frame, acc, trace =>
      let remaining := cfg.scenario.timeout_s - elapsed
      if remaining ≤ 0 then
        ⟨{ acc with termination_reason := TerminationReason.TIMEOUT }, elapsed, trace⟩
      else
        let call := cfg.vlm step_idx
        let trace1 := trace ++ [TraceEntry.vlmCall (some remaining) elapsed]
        if remaining < call.duration then
          ⟨{ acc with termination_reason := TerminationReason.TIMEOUT },
            elapsed + remaining, trace1⟩
        else
          match call.raises with
          | some msg =>
              ⟨{ acc with
                  termination_reason := TerminationReason.ERROR
                  error := some msg },
                elapsed + call.duration, trace1⟩
          | none =>
              let resp := call.resp
              let step : StepResult :=
                { step_index := step_idx, action := resp.action, reasoning := resp.reasoning,
                  latency_ms := resp.latency_ms, cost_usd := resp.cost_usd }
              let acc1 : ScenarioResult :=
                { acc with
                    steps := acc.steps ++ [step]
                    total_latency_ms := acc.total_latency_ms + resp.latency_ms
                    total_cost_usd := acc.total_cost_usd + resp.cost_usd }
              let elapsed1 := elapsed + call.duration
              match cfg.on_step step_idx with
              | some msg =>
                  ⟨{ acc1 with
                      termination_reason := TerminationReason.ERROR
                      error := some msg }, elapsed1, trace1⟩
              | none =>
                  if resp.done then
                    ⟨{ acc1 with termination_reason := TerminationReason.DONE },
                      elapsed1, trace1⟩
                  else
                    let clip := cfg.clips (step_idx + 1)
                    let trace2 := trace1 ++ [TraceEntry.clipCall none]
                    if clip.failed then
                      ⟨{ acc1 with
                          termination_reason := TerminationReason.ERROR
                          error := some (runClipMsg clip) },
                        elapsed1 + clip.duration, trace2⟩
                    else
                      runLoop cfg fuel (step_idx + 1) (elapsed1 + clip.duration)
                        clip.frame acc1 trace2

/-- ScenarioRunner.run (runner.py lines 77-157): initialize the fresh
result, run the scene-0 clip with no timeout bound (a failure there is the
session failing to start: caught at top level as ERROR with the
RuntimeError message), enter the control loop, then run the evaluator
phase; the caller always receives a ScenarioResult. -/
def ScenarioRunner.run (cfg : RunConfig) : RunOutput :=
  let init := ScenarioResult.fresh cfg.scenario
  let clip := cfg.clips 0
  let trace0 := [TraceEntry.clipCall none]
  let out :=
    if clip.failed then
      ⟨{ init with
          termination_reason := TerminationReason.ERROR
          error := some (runClipMsg clip) }, clip.duration, trace0⟩
    else
      runLoop cfg cfg.scenario.max_steps 0 clip.duration clip.frame init trace0
  { out with result := runEvals cfg.evals out.result }

/-- Sum of the per-step latencies of a list of steps. -/
def totalLat (l : List StepResult) : ℚ :=
  (l.map (fun s => s.latency_ms)).sum

/-- Sum of the per-step costs of a list of steps. -/
def totalCost (l : List StepResult) : ℚ :=
  (l.map (fun s => s.cost_usd)).sum

/-- Number of positionally matching actions, as counted by
ExactPathEvaluator.evaluate. -/
def matchedCount (check_parameters : Bool) (expected actual : List Action) : ℕ :=
  ((expected.zip actual).filter
    (fun p => actionMatches check_parameters p.1 p.2)).length

/-- The timeout-bound discipline an entry of the suspension trace
satisfies in the source: an environment clip call carries no bound at
all, while a VLM call is bounded by exactly the remaining budget
timeout_s minus the elapsed wall-clock at the call, which is positive
(the loop already exited TIMEOUT otherwise). -/
def boundedEntry (cfg : RunConfig) : TraceEntry → Prop
  | TraceEntry.clipCall b => b = none
  | TraceEntry.vlmCall b e =>
      b = some (cfg.scenario.timeout_s - e) ∧ 0 < cfg.scenario.timeout_s - e

/-! Concrete sample data used to instantiate the theorems. -/

/-- Sample scenario expecting one pick_up action, for concrete
evaluator instantiations. -/
def pickupScenario : Scenario :=
  { name := "s", prompt := "p",
    expected_actions := [{ name := "pick_up", parameters := [("object", "cup")] }] }

/-- Sample run with no steps against pickupScenario. -/
def emptyRun : ScenarioResult :=
  { scenario := pickupScenario }

/-- Sample run whose single step exactly matches pickupScenario. -/
def matchingRun : ScenarioResult :=
  { scenario := pickupScenario
    steps := [{ step_index := 0
                action := { name := "pick_up", parameters := [("object", "cup")] } }] }

/-- Sample ERROR-terminated run whose single stored eval score passed. -/
def errorRunAllPass : ScenarioResult :=
  { scenario := pickupScenario
    termination_reason := TerminationReason.ERROR
    error := some "boom"
    eval_scores := [("exact_path", { score := 1, passed := true })] }

/-- A VLM call answering instantly with a non-done wander action. -/
def wanderVLM : VLMCall :=
  { resp := { action := { name := "wander" } } }

/-- A VLM call answering instantly with the done signal. -/
def doneVLM : VLMCall :=
  { resp := { action := { name := "done" }, done := true } }

/-- Run with a zero wall-clock budget: the first loop check must fire. -/
def cfgTimeout : RunConfig :=
  { scenario := { name := "timeout_test", prompt := "hurry", max_steps := 3, timeout_s := 0 }
    clips := fun _ => {}
    vlm := fun _ => wanderVLM }

/-- Run whose oracle never signals done, with max_steps = 2. -/
def cfgNeverDone : RunConfig :=
  { scenario := { name := "wanderer", prompt := "wander around", max_steps := 2 }
    clips := fun _ => {}
    vlm := fun _ => wanderVLM }

/-- Run with max_steps = 0. -/
def cfgZeroSteps : RunConfig :=
  { scenario := { name := "zero", prompt := "p", max_steps := 0 }
    clips := fun _ => {}
    vlm := fun _ => wanderVLM }

/-- Run whose oracle emits move_forward, pick_up, then done. -/
def cfgDoneAt2 : RunConfig :=
  { scenario := { name := "basic", prompt := "pick up the cup", max_steps := 5 }
    clips := fun _ => {}
    vlm := fun j =>
      if j = 0 then { resp := { action := { name := "move_forward" } } }
      else if j = 1 then { resp := { action := { name := "pick_up" } } }
      else doneVLM }

/-- Run whose scene-0 simulate job fails with an empty error message. -/
def cfgFailStart : RunConfig :=
  { scenario := { name := "fail_test", prompt := "do something" }
    clips := fun _ => { failed := true }
    vlm := fun _ => doneVLM }

/-- Run whose oracle raises an exception carrying an empty message. -/
def cfgRaiseEmpty : RunConfig :=
  { scenario := { name := "raise", prompt := "p", max_steps := 1 }
    clips := fun _ => {}
    vlm := fun _ => { resp := { action := { name := "noop" } }, raises := some "" } }

/-- Run whose scene-0 clip takes 100 seconds of wall clock against a
1 second budget. -/
def cfgSlowClip : RunConfig :=
  { scenario := { name := "slow", prompt := "p", max_steps := 5, timeout_s := 1 }
    clips := fun _ => { duration := 100 }
    vlm := fun _ => wanderVLM }

/-- Run whose oracle signals done on the very first call. -/
def cfgDoneNow : RunConfig :=
  { scenario := { name := "now", prompt := "p", max_steps := 1 }
    clips := fun _ => {}
    vlm := fun _ => doneVLM }

/-! Session lemmas: replaying a trace one event at a time. -/

theorem replay_snoc (s : SessionState) (l : List SessionEvent) (e : SessionEvent) :
    OdysseySession.replay s (l ++ [e]) = OdysseySession.step (OdysseySession.replay s l) e := by
  simp [OdysseySession.replay, List.foldl_append]

theorem replay_append (s : SessionState) (l1 l2 : List SessionEvent) :
    OdysseySession.replay s (l1 ++ l2) =
      OdysseySession.replay (OdysseySession.replay s l1) l2 := by
  simp [OdysseySession.replay, List.foldl_append]

theorem lastFrameData_snoc (l : List SessionEvent) (e : SessionEvent) :
    lastFrameData (l ++ [e]) =
      match e with
      | SessionEvent.frameArrive d => some d
      | SessionEvent.interact => lastFrameData l := by
  cases e <;> simp [lastFrameData, List.foldl_append]

/-- A frame was delivered during the replayed suffix whenever the event
flag went from cleared to set. -/
theorem replay_event_some (s : SessionState) (l : List SessionEvent)
    (hs : s.frame_event = false)
    (h : (OdysseySession.replay s l).frame_event = true) :
    ∃ d, lastFrameData l = some d := by
  induction l using List.reverseRecOn with
  | nil =>
      simp only [OdysseySession.replay, List.foldl_nil] at h
      rw [hs] at h
      exact absurd h (by simp)
  | append_singleton l e ih =>
      cases e with
      | interact =>
          rw [replay_snoc] at h
          simp [OdysseySession.step] at h
      | frameArrive d =>
          exact ⟨d, by simp [lastFrameData_snoc]⟩

/-- The retained frame after a replay is the most recent delivery of the
replayed trace. -/
theorem replay_frame_last (s : SessionState) (l : List SessionEvent) (d : ℕ)
    (h : lastFrameData l = some d) :
    (OdysseySession.replay s l).frame = some d := by
  induction l using List.reverseRecOn with
  | nil => simp [lastFrameData] at h
  | append_singleton l e ih =>
      cases e with
      | interact =>
          rw [lastFrameData_snoc] at h
          rw [replay_snoc]
          simpa [OdysseySession.step] using ih h
      | frameArrive d' =>
          rw [lastFrameData_snoc] at h
          rw [replay_snoc]
          simp only [Option.some.injEq] at h
          simp [OdysseySession.step, h]

/-- With no frame delivered in the suffix, the event flag stays cleared. -/
theorem replay_event_none (s : SessionState) (l : List SessionEvent)
    (hs : s.frame_event = false) (h : lastFrameData l = none) :
    (OdysseySession.replay s l).frame_event = false := by
  induction l using List.reverseRecOn with
  | nil => simpa [OdysseySession.replay] using hs
  | append_singleton l e ih =>
      cases e with
      | interact => simp [replay_snoc, OdysseySession.step]
      | frameArrive d' => simp [lastFrameData_snoc] at h

/-- The most recent delivery of a trace is a delivery of that trace. -/
theorem frameArrive_mem_of_last (l : List SessionEvent) (d : ℕ)
    (h : lastFrameData l = some d) : SessionEvent.frameArrive d ∈ l := by
  induction l using List.reverseRecOn with
  | nil => simp [lastFrameData] at h
  | append_singleton l e ih =>
      cases e with
      | interact =>
          rw [lastFrameData_snoc] at h
          exact List.mem_append_left _ (ih h)
      | frameArrive d' =>
          rw [lastFrameData_snoc] at h
          simp only [Option.some.injEq] at h
          subst h
          exact List.mem_append_right _ (List.mem_singleton.mpr rfl)

/-- C10: OdysseySession.interact clears the frame-freshness flag before
the command is sent, so a wait_for_frame that follows an interact returns
only a frame the callback delivered after that interact - never a stale
pre-interaction frame - and the frame it returns is the most recent one
delivered; with no post-interaction delivery it keeps suspending. In the
trace model: for any session history split around an interact, a value
returned by wait_for_frame is the data of the last frameArrive of the
post-interact suffix (in particular such a delivery exists in the
suffix), and when the suffix delivers no frame, wait_for_frame returns
nothing. -/
theorem interact_frame_freshness :
    ∀ (s : SessionState) (pre post : List SessionEvent),
      (∀ d, OdysseySession.wait_for_frame
          (OdysseySession.replay s (pre ++ SessionEvent.interact :: post)) = some d →
        SessionEvent.frameArrive d ∈ post ∧ lastFrameData post = some d) ∧
      (lastFrameData post = none →
        OdysseySession.wait_for_frame
          (OdysseySession.replay s (pre ++ SessionEvent.interact :: post)) = none) := by
  intro s pre post
  have hsplit : pre ++ SessionEvent.interact :: post =
      (pre ++ [SessionEvent.interact]) ++ post := by simp
  have hflag : (OdysseySession.replay s (pre ++ [SessionEvent.interact])).frame_event = false := by
    rw [replay_snoc]
    rfl
  constructor
  · intro d hw
    rw [hsplit, replay_append] at hw
    unfold OdysseySession.wait_for_frame at hw
    by_cases hf : (OdysseySession.replay (OdysseySession.replay s
        (pre ++ [SessionEvent.interact])) post).frame_event = true
    · obtain ⟨d0, hd0⟩ := replay_event_some _ post hflag hf
      have hfr := replay_frame_last (OdysseySession.replay s
        (pre ++ [SessionEvent.interact])) post d0 hd0
      rw [hf, if_pos rfl, hfr] at hw
      obtain rfl : d0 = d := by injection hw
      exact ⟨frameArrive_mem_of_last _ _ hd0, hd0⟩
    · simp only [Bool.not_eq_true] at hf
      rw [hf] at hw
      simp at hw
  · intro h
    rw [hsplit, replay_append]
    unfold OdysseySession.wait_for_frame
    rw [replay_event_none _ post hflag h]
    rfl

/-- Concrete instantiation of the frame-freshness theorem: a frame
delivered before the interact (data 7) is not returned; the wait after the
interact returns the post-interaction frame 9, the most recent delivery. -/
theorem interact_frame_freshness_witness :
    SessionEvent.frameArrive 9 ∈ [SessionEvent.frameArrive 9] ∧
      lastFrameData [SessionEvent.frameArrive 9] = some 9 :=
  (interact_frame_freshness ⟨none, false⟩
    [SessionEvent.frameArrive 7] [SessionEvent.frameArrive 9]).1 9 (by decide)

/-! Exact-path evaluator lemmas. -/

theorem lookup_of_nodup_mem (l : List (String × String)) (k v : String)
    (hnd : (l.map Prod.fst).Nodup) (hm : (k, v) ∈ l) : l.lookup k = some v := by
  induction l with
  | nil => simp at hm
  | cons p t ih =>
      obtain ⟨k', v'⟩ := p
      simp only [List.map_cons, List.nodup_cons] at hnd
      rcases List.mem_cons.mp hm with heq | hmt
      · injection heq with h1 h2
        subst h1
        subst h2
        simp [List.lookup]
      · have hk : k ≠ k' := by
          rintro rfl
          exact hnd.1 (List.mem_map.mpr ⟨(k, v), hmt, rfl⟩)
        have hbeq : (k == k') = false := beq_eq_false_iff_ne.mpr hk
        simp [List.lookup, hbeq, ih hnd.2 hmt]

/-- Python dict equality is reflexive on a dict (an association list with
distinct keys). -/
theorem dictEq_self (l : List (String × String))
    (hnd : (l.map Prod.fst).Nodup) : dictEq l l = true := by
  unfold dictEq
  rw [Bool.and_self]
  rw [List.all_eq_true]
  intro p hp
  have : l.lookup p.1 = some p.2 := by
    apply lookup_of_nodup_mem l p.1 p.2 hnd
    simpa using hp
  simp [this]

/-- An action positionally matches itself when its parameter map has
distinct keys (as a Python dict always does). -/
theorem actionMatches_self (c : Bool) (a : Action)
    (hnd : (a.parameters.map Prod.fst).Nodup) : actionMatches c a a = true := by
  unfold actionMatches
  cases c <;> simp [dictEq_self a.parameters hnd]

theorem zip_self (l : List α) : l.zip l = l.map (fun a => (a, a)) := by
  induction l with
  | nil => rfl
  | cons a t ih => simp [List.zip_cons_cons, ih]

theorem evaluate_of_len_ne (c : Bool) (s : Scenario) (r : ScenarioResult)
    (h : s.expected_actions.length ≠ r.actions.length) :
    ExactPathEvaluator.evaluate c s r =
      { name := "exact_path", score := 0, passed := false,
        details := ExactDetails.length_mismatch s.expected_actions.length
          r.actions.length } := by
  simp only [ExactPathEvaluator.evaluate]
  rw [if_pos h]

theorem evaluate_score_of_len_eq (c : Bool) (s : Scenario) (r : ScenarioResult)
    (hlen : s.expected_actions.length = r.actions.length) :
    (ExactPathEvaluator.evaluate c s r).score =
      if s.expected_actions.isEmpty then 1
      else (matchedCount c s.expected_actions r.actions : ℚ) /
        (s.expected_actions.length : ℚ) := by
  simp only [ExactPathEvaluator.evaluate, matchedCount]
  rw [if_neg (fun hc => hc hlen)]

theorem evaluate_passed_iff (c : Bool) (s : Scenario) (r : ScenarioResult) :
    (ExactPathEvaluator.evaluate c s r).passed = true ↔
      (ExactPathEvaluator.evaluate c s r).score = 1 := by
  simp only [ExactPathEvaluator.evaluate]
  split
  · simp
  · simp
    tauto

/-- C8: ExactPathEvaluator.evaluate returns score 0 and passed = false
with a length-mismatch detail whenever the expected and actual action
sequences differ in length; with equal non-zero lengths the score is the
number of positionally matching actions (equal name and, when parameter
checking is enabled, equal parameter dicts) divided by the expected
length; passed holds exactly when the score is 1; empty expected against
empty actual scores 1 and passes; and actual equal to expected always
scores 1 and passes. -/
theorem exact_path_evaluator_spec :
    (∀ (c : Bool) (s : Scenario) (r : ScenarioResult),
        s.expected_actions.length ≠ r.actions.length →
        ExactPathEvaluator.evaluate c s r =
          { name := "exact_path", score := 0, passed := false,
            details := ExactDetails.length_mismatch s.expected_actions.length
              r.actions.length }) ∧
    (∀ (c : Bool) (s : Scenario) (r : ScenarioResult),
        s.expected_actions.length = r.actions.length →
        s.expected_actions ≠ [] →
        (ExactPathEvaluator.evaluate c s r).score =
          (matchedCount c s.expected_actions r.actions : ℚ) /
            (s.expected_actions.length : ℚ)) ∧
    (∀ (c : Bool) (s : Scenario) (r : ScenarioResult),
        (ExactPathEvaluator.evaluate c s r).passed = true ↔
          (ExactPathEvaluator.evaluate c s r).score = 1) ∧
    (∀ (c : Bool) (s : Scenario) (r : ScenarioResult),
        s.expected_actions = [] → r.actions = [] →
        (ExactPathEvaluator.evaluate c s r).score = 1 ∧
        (ExactPathEvaluator.evaluate c s r).passed = true) ∧
    (∀ (c : Bool) (s : Scenario) (r : ScenarioResult),
        r.actions = s.expected_actions →
        (∀ a ∈ s.expected_actions, (a.parameters.map Prod.fst).Nodup) →
        (ExactPathEvaluator.evaluate c s r).score = 1 ∧
        (ExactPathEvaluator.evaluate c s r).passed = true) := by
  refine ⟨evaluate_of_len_ne, ?_, evaluate_passed_iff, ?_, ?_⟩
  · intro c s r hlen hne
    rw [evaluate_score_of_len_eq c s r hlen]
    simp [hne]
  · intro c s r h1 h2
    have hlen : s.expected_actions.length = r.actions.length := by rw [h1, h2]
    have hsc : (ExactPathEvaluator.evaluate c s r).score = 1 := by
      rw [evaluate_score_of_len_eq c s r hlen]
      simp [h1]
    exact ⟨hsc, (evaluate_passed_iff c s r).mpr hsc⟩
  · intro c s r heq hwf
    have hlen : s.expected_actions.length = r.actions.length := by rw [heq]
    have hsc : (ExactPathEvaluator.evaluate c s r).score = 1 := by
      rw [evaluate_score_of_len_eq c s r hlen]
      by_cases hne : s.expected_actions = []
      · simp [hne]
      · have hall : ∀ p ∈ s.expected_actions.zip r.actions,
            actionMatches c p.1 p.2 = true := by
          rw [heq, zip_self]
          intro p hp
          obtain ⟨a, ha, rfl⟩ := List.mem_map.mp hp
          exact actionMatches_self c a (hwf a ha)
        have hfe : (s.expected_actions.zip r.actions).filter
            (fun p => actionMatches c p.1 p.2) = s.expected_actions.zip r.actions :=
          List.filter_eq_self.mpr hall
        have hzlen : (s.expected_actions.zip r.actions).length =
            s.expected_actions.length := by
          rw [heq, zip_self, List.length_map]
        have hone : s.expected_actions.length ≠ 0 := by simpa using hne
        have hmc : matchedCount c s.expected_actions r.actions =
            s.expected_actions.length := by
          simp only [matchedCount]
          rw [hfe, hzlen]
        rw [if_neg (by simp [hne]), hmc]
        exact div_self (by exact_mod_cast hone)
    exact ⟨hsc, (evaluate_passed_iff c s r).mpr hsc⟩

/-- Concrete instantiations of the exact-path evaluator theorem: a
length mismatch scores 0 and fails, and an exactly matching run scores 1
and passes. -/
theorem exact_path_evaluator_spec_witness :
    ExactPathEvaluator.evaluate true pickupScenario emptyRun =
      { name := "exact_path", score := 0, passed := false,
        details := ExactDetails.length_mismatch 1 0 } ∧
    (ExactPathEvaluator.evaluate true pickupScenario matchingRun).score = 1 := by
  constructor
  · exact exact_path_evaluator_spec.1 true pickupScenario emptyRun (by decide)
  · exact (exact_path_evaluator_spec.2.2.2.2 true pickupScenario matchingRun
      (by decide) (by decide)).1

/-- C9: ScenarioResult.passed is the overall verdict: with no stored eval
scores the run passed exactly when it terminated DONE; with stored scores
it passed exactly when every stored score passed, the termination reason
then being ignored (so an ERROR-terminated run whose evaluators all pass
counts as passed); StructuredReport.all_passed is the conjunction of the
collected results and holds for an empty collection. -/
theorem passed_and_all_passed_spec :
    (∀ r : ScenarioResult, r.eval_scores = [] →
        (r.passed = true ↔ r.termination_reason = TerminationReason.DONE)) ∧
    (∀ r : ScenarioResult, r.eval_scores ≠ [] →
        (r.passed = true ↔ ∀ p ∈ r.eval_scores, p.2.passed = true)) ∧
    (∀ rep : StructuredReport,
        (rep.all_passed = true ↔ ∀ r ∈ rep.results, r.passed = true)) ∧
    StructuredReport.all_passed ⟨[]⟩ = true := by
  refine ⟨?_, ?_, ?_, rfl⟩
  · intro r h
    simp [ScenarioResult.passed, h]
  · intro r h
    have hie : r.eval_scores.isEmpty = false := by simp [h]
    simp [ScenarioResult.passed, hie, List.all_eq_true]
  · intro rep
    simp [StructuredReport.all_passed, List.all_eq_true]

/-- Concrete instantiation of the verdict theorem: an ERROR-terminated
run with every evaluator passing counts as passed. -/
theorem passed_and_all_passed_spec_witness :
    errorRunAllPass.passed = true ∧
      errorRunAllPass.termination_reason = TerminationReason.ERROR := by
  constructor
  · exact (passed_and_all_passed_spec.2.1 errorRunAllPass (by decide)).mpr (by decide)
  · rfl

/-! Control-loop lemmas: facts about runLoop proved by induction on the
remaining fuel (the iterations left of `for step_idx in range(max_steps)`). -/

theorem runLoop_steps_le (cfg : RunConfig) :
    ∀ (fuel step_idx : ℕ) (elapsed : ℚ) (frame : ℕ) (acc : ScenarioResult)
      (trace : List TraceEntry),
      (runLoop cfg fuel step_idx elapsed frame acc trace).result.steps.length ≤
        acc.steps.length + fuel := by
  intro fuel
  induction fuel with
  | zero =>
      intro step_idx elapsed frame acc trace
      simp [runLoop]
  | succ fuel ih =>
      intro step_idx elapsed frame acc trace
      simp only [runLoop]
      split
      · simp
      · split
        · simp
        · split
          · simp
          · split
            · simp
              try omega
            · split
              · simp
                try omega
              · split
                · simp
                  try omega
                · refine le_trans (ih _ _ _ _ _) ?_
                  simp
                  try omega

theorem runLoop_totals (cfg : RunConfig) :
    ∀ (fuel step_idx : ℕ) (elapsed : ℚ) (frame : ℕ) (acc : ScenarioResult)
      (trace : List TraceEntry),
      acc.total_latency_ms = totalLat acc.steps →
      acc.total_cost_usd = totalCost acc.steps →
      (runLoop cfg fuel step_idx elapsed frame acc trace).result.total_latency_ms =
        totalLat (runLoop cfg fuel step_idx elapsed frame acc trace).result.steps ∧
      (runLoop cfg fuel step_idx elapsed frame acc trace).result.total_cost_usd =
        totalCost (runLoop cfg fuel step_idx elapsed frame acc trace).result.steps := by
  intro fuel
  induction fuel with
  | zero =>
      intro step_idx elapsed frame acc trace h1 h2
      simp [runLoop, h1, h2]
  | succ fuel ih =>
      intro step_idx elapsed frame acc trace h1 h2
      simp only [runLoop]
      split
      · simp [h1, h2]
      · split
        · simp [h1, h2]
        · split
          · simp [h1, h2]
          · split
            · simp [totalLat, totalCost, h1, h2]
            · split
              · simp [totalLat, totalCost, h1, h2]
              · split
                · simp [totalLat, totalCost, h1, h2]
                · refine ih _ _ _ _ _ ?_ ?_
                  · simp [totalLat, h1]
                  · simp [totalCost, h2]

theorem runLoop_maxsteps_len (cfg : RunConfig) :
    ∀ (fuel step_idx : ℕ) (elapsed : ℚ) (frame : ℕ) (acc : ScenarioResult)
      (trace : List TraceEntry),
      (runLoop cfg fuel step_idx elapsed frame acc trace).result.termination_reason =
        TerminationReason.MAX_STEPS →
      (runLoop cfg fuel step_idx elapsed frame acc trace).result.steps.length =
        acc.steps.length + fuel := by
  intro fuel
  induction fuel with
  | zero =>
      intro step_idx elapsed frame acc trace _
      simp [runLoop]
  | succ fuel ih =>
      intro step_idx elapsed frame acc trace
      simp only [runLoop]
      split
      · simp
      · split
        · simp
        · split
          · simp
          · split
            · simp
            · split
              · simp
              · split
                · simp
                · intro h
                  have h2 := ih _ _ _ _ _ h
                  rw [h2]
                  simp
                  try omega

theorem runLoop_done_exists (cfg : RunConfig) :
    ∀ (fuel step_idx : ℕ) (elapsed : ℚ) (frame : ℕ) (acc : ScenarioResult)
      (trace : List TraceEntry),
      (runLoop cfg fuel step_idx elapsed frame acc trace).result.termination_reason =
        TerminationReason.DONE →
      ∃ j, step_idx ≤ j ∧ (cfg.vlm j).resp.done = true := by
  intro fuel
  induction fuel with
  | zero =>
      intro step_idx elapsed frame acc trace h
      simp [runLoop] at h
  | succ fuel ih =>
      intro step_idx elapsed frame acc trace
      simp only [runLoop]
      split
      · simp
      · split
        · simp
        · split
          · simp
          · split
            · simp
            · split
              · rename_i hdone
                intro _h
                exact ⟨step_idx, Nat.le_refl _, hdone⟩
              · split
                · simp
                · intro h
                  obtain ⟨j, hj, hd⟩ := ih _ _ _ _ _ h
                  exact ⟨j, by omega, hd⟩

theorem runLoop_error_msg (cfg : RunConfig) :
    ∀ (fuel step_idx : ℕ) (elapsed : ℚ) (frame : ℕ) (acc : ScenarioResult)
      (trace : List TraceEntry),
      (runLoop cfg fuel step_idx elapsed frame acc trace).result.termination_reason =
        TerminationReason.ERROR →
      (runLoop cfg fuel step_idx elapsed frame acc trace).result.error ≠ none := by
  intro fuel
  induction fuel with
  | zero =>
      intro step_idx elapsed frame acc trace h
      simp [runLoop] at h
  | succ fuel ih =>
      intro step_idx elapsed frame acc trace
      simp only [runLoop]
      split
      · simp
      · split
        · simp
        · split
          · simp
          · split
            · simp
            · split
              · simp
              · split
                · simp
                · exact ih _ _ _ _ _

theorem runLoop_trace_spec (cfg : RunConfig) :
    ∀ (fuel step_idx : ℕ) (elapsed : ℚ) (frame : ℕ) (acc : ScenarioResult)
      (trace : List TraceEntry) (entry : TraceEntry),
      entry ∈ (runLoop cfg fuel step_idx elapsed frame acc trace).trace →
      entry ∈ trace ∨ boundedEntry cfg entry := by
  intro fuel
  induction fuel with
  | zero =>
      intro step_idx elapsed frame acc trace entry h
      simp only [runLoop] at h
      exact Or.inl h
  | succ fuel ih =>
      intro step_idx elapsed frame acc trace entry
      simp only [runLoop]
      split
      · intro h
        exact Or.inl h
      · rename_i hpos
        have hrem : 0 < cfg.scenario.timeout_s - elapsed := lt_of_not_le hpos
        have hvlm : boundedEntry cfg
            (TraceEntry.vlmCall (some (cfg.scenario.timeout_s - elapsed)) elapsed) :=
          ⟨rfl, hrem⟩
        have hmem1 : ∀ e,
            e ∈ trace ++ [TraceEntry.vlmCall (some (cfg.scenario.timeout_s - elapsed)) elapsed] →
            e ∈ trace ∨ boundedEntry cfg e := by
          intro e he
          rcases List.mem_append.mp he with h1 | h1
          · exact Or.inl h1
          · rw [List.mem_singleton.mp h1]
            exact Or.inr hvlm
        have hmem2 : ∀ e,
            e ∈ trace ++ [TraceEntry.vlmCall (some (cfg.scenario.timeout_s - elapsed)) elapsed]
              ++ [TraceEntry.clipCall none] →
            e ∈ trace ∨ boundedEntry cfg e := by
          intro e he
          rcases List.mem_append.mp he with h1 | h1
          · exact hmem1 e h1
          · rw [List.mem_singleton.mp h1]
            exact Or.inr rfl
        split
        · exact hmem1 entry
        · split
          · exact hmem1 entry
          · split
            · exact hmem1 entry
            · split
              · exact hmem1 entry
              · split
                · exact hmem2 entry
                · intro h
                  rcases ih _ _ _ _ _ entry h with h1 | h1
                  · exact hmem2 entry h1
                  · exact Or.inr h1

theorem runLoop_done_at (cfg : RunConfig) (k : ℕ) :
    ∀ (fuel step_idx : ℕ) (elapsed : ℚ) (frame : ℕ) (acc : ScenarioResult)
      (trace : List TraceEntry),
      step_idx ≤ k → k < step_idx + fuel →
      (∀ j, step_idx ≤ j → j < k → (cfg.vlm j).resp.done = false) →
      (cfg.vlm k).resp.done = true →
      (runLoop cfg fuel step_idx elapsed frame acc trace).result.termination_reason ≠
        TerminationReason.TIMEOUT →
      (runLoop cfg fuel step_idx elapsed frame acc trace).result.termination_reason ≠
        TerminationReason.ERROR →
      (runLoop cfg fuel step_idx elapsed frame acc trace).result.termination_reason =
        TerminationReason.DONE ∧
      (runLoop cfg fuel step_idx elapsed frame acc trace).result.steps.length =
        acc.steps.length + (k - step_idx) + 1 ∧
      (runLoop cfg fuel step_idx elapsed frame acc trace).result.steps.getLast? = some
        { step_index := k, action := (cfg.vlm k).resp.action,
          reasoning := (cfg.vlm k).resp.reasoning,
          latency_ms := (cfg.vlm k).resp.latency_ms,
          cost_usd := (cfg.vlm k).resp.cost_usd } := by
  intro fuel
  induction fuel with
  | zero =>
      intro step_idx elapsed frame acc trace hk1 hk2 _ _
      omega
  | succ fuel ih =>
      intro step_idx elapsed frame acc trace hk1 hk2 hnever hdk
      simp only [runLoop]
      split
      · simp
      · split
        · simp
        · split
          · simp
          · split
            · simp
            · split
              · rename_i hdone
                have hik : step_idx = k := by
                  by_contra hne
                  have hlt : step_idx < k := by omega
                  rw [hnever step_idx (Nat.le_refl _) hlt] at hdone
                  exact absurd hdone (by simp)
                subst hik
                intro _ _
                refine ⟨rfl, ?_, ?_⟩
                · simp
                · exact List.getLast?_concat _
              · rename_i hdone
                have hlt : step_idx < k := by
                  rcases Nat.lt_or_ge step_idx k with h | h
                  · exact h
                  · have : step_idx = k := by omega
                    rw [this, hdk] at hdone
                    exact absurd rfl hdone
                split
                · simp
                · intro hTO hER
                  obtain ⟨ha, hb, hc⟩ :=
                    ih (step_idx + 1) _ _ _ _ (by omega) (by omega)
                      (fun j h1 h2 => hnever j (by omega) h2) hdk hTO hER
                  refine ⟨ha, ?_, hc⟩
                  rw [hb]
                  simp
                  omega

/-- The evaluator phase only adds eval scores: it never touches the
steps, the termination reason, the error, the totals or the scenario. -/
theorem runEvals_preserves (evals : List EvaluatorFn) :
    ∀ r : ScenarioResult,
      (runEvals evals r).steps = r.steps ∧
      (runEvals evals r).termination_reason = r.termination_reason ∧
      (runEvals evals r).error = r.error ∧
      (runEvals evals r).total_latency_ms = r.total_latency_ms ∧
      (runEvals evals r).total_cost_usd = r.total_cost_usd ∧
      (runEvals evals r).scenario = r.scenario := by
  induction evals with
  | nil =>
      intro r
      simp [runEvals]
  | cons ev t ih =>
      intro r
      simp only [runEvals, List.foldl_cons] at ih ⊢
      cases hev : ev r.scenario r with
      | none =>
          simp only [hev]
          exact ih r
      | some s =>
          simp only [hev]
          have h := ih { r with
            eval_scores := insertScore r.eval_scores s.name ⟨s.score, s.passed⟩ }
          simpa using h

theorem run_result_ok (cfg : RunConfig) (h : (cfg.clips 0).failed = false) :
    (ScenarioRunner.run cfg).result =
      runEvals cfg.evals (runLoop cfg cfg.scenario.max_steps 0 (cfg.clips 0).duration
        (cfg.clips 0).frame (ScenarioResult.fresh cfg.scenario)
        [TraceEntry.clipCall none]).result := by
  simp only [ScenarioRunner.run]
  rw [if_neg (by simp [h])]

theorem run_trace_ok (cfg : RunConfig) (h : (cfg.clips 0).failed = false) :
    (ScenarioRunner.run cfg).trace =
      (runLoop cfg cfg.scenario.max_steps 0 (cfg.clips 0).duration
        (cfg.clips 0).frame (ScenarioResult.fresh cfg.scenario)
        [TraceEntry.clipCall none]).trace := by
  simp only [ScenarioRunner.run]
  rw [if_neg (by simp [h])]

theorem run_result_failed (cfg : RunConfig) (h : (cfg.clips 0).failed = true) :
    (ScenarioRunner.run cfg).result =
      runEvals cfg.evals { ScenarioResult.fresh cfg.scenario with
        termination_reason := TerminationReason.ERROR
        error := some (runClipMsg (cfg.clips 0)) } := by
  simp only [ScenarioRunner.run]
  rw [if_pos h]

/-- C1: every run of ScenarioRunner.run returns a result satisfying the
data-model invariant: the number of recorded steps never exceeds
scenario.max_steps, total_latency_ms is the sum of the recorded steps'
latency_ms, and total_cost_usd is the sum of their cost_usd. -/
theorem runresult_invariant (cfg : RunConfig) :
    (ScenarioRunner.run cfg).result.steps.length ≤ cfg.scenario.max_steps ∧
    (ScenarioRunner.run cfg).result.total_latency_ms =
      totalLat (ScenarioRunner.run cfg).result.steps ∧
    (ScenarioRunner.run cfg).result.total_cost_usd =
      totalCost (ScenarioRunner.run cfg).result.steps := by
  cases hc : (cfg.clips 0).failed with
  | true =>
      rw [run_result_failed cfg hc]
      obtain ⟨hs, _, _, hl, hcost, _⟩ := runEvals_preserves cfg.evals _
      rw [hs, hl, hcost]
      simp [ScenarioResult.fresh, totalLat, totalCost]
  | false =>
      rw [run_result_ok cfg hc]
      obtain ⟨hs, _, _, hl, hcost, _⟩ := runEvals_preserves cfg.evals _
      rw [hs, hl, hcost]
      refine ⟨?_, ?_⟩
      · have h := runLoop_steps_le cfg cfg.scenario.max_steps 0 (cfg.clips 0).duration
          (cfg.clips 0).frame (ScenarioResult.fresh cfg.scenario) [TraceEntry.clipCall none]
        simpa [ScenarioResult.fresh] using h
      · exact runLoop_totals cfg cfg.scenario.max_steps 0 (cfg.clips 0).duration
          (cfg.clips 0).frame (ScenarioResult.fresh cfg.scenario) [TraceEntry.clipCall none]
          (by simp [ScenarioResult.fresh, totalLat]) (by simp [ScenarioResult.fresh, totalCost])

/-- C2 (amended): every exception of the control loop other than a
timeout is caught exactly once at the top level - the runner is a total
function into a ScenarioResult, it never propagates - sets
termination_reason to ERROR and records the exception's message as the
error string, which can be empty when the exception itself carries an
empty message; in particular when the scene-0 simulate job (the start of
the environment session) fails, the run returns ERROR with zero steps
and the non-empty message job.error_message-or-"Simulation job failed". -/
theorem error_handling_spec :
    (∀ cfg : RunConfig, (cfg.clips 0).failed = true →
        (ScenarioRunner.run cfg).result.termination_reason = TerminationReason.ERROR ∧
        (ScenarioRunner.run cfg).result.steps = [] ∧
        (ScenarioRunner.run cfg).result.error = some (runClipMsg (cfg.clips 0)) ∧
        runClipMsg (cfg.clips 0) ≠ "") ∧
    (∀ cfg : RunConfig,
        (ScenarioRunner.run cfg).result.termination_reason = TerminationReason.ERROR →
        (ScenarioRunner.run cfg).result.error ≠ none) := by
  constructor
  · intro cfg h
    rw [run_result_failed cfg h]
    obtain ⟨hs, hr, he, _, _, _⟩ := runEvals_preserves cfg.evals _
    rw [hs, hr, he]
    refine ⟨rfl, rfl, rfl, ?_⟩
    unfold runClipMsg
    split
    · decide
    · assumption
  · intro cfg h
    cases hc : (cfg.clips 0).failed with
    | true =>
        rw [run_result_failed cfg hc]
        rw [(runEvals_preserves cfg.evals _).2.2.1]
        simp
    | false =>
        rw [run_result_ok cfg hc] at h ⊢
        rw [(runEvals_preserves cfg.evals _).2.1] at h
        rw [(runEvals_preserves cfg.evals _).2.2.1]
        exact runLoop_error_msg cfg _ _ _ _ _ _ h

/-- Counterexample to C2 as stated: the claim demands a non-empty
error message for every caught exception, but runner.py stores
str(exc), which is empty for an exception raised with no message. A
run whose oracle raises an exception with an empty message terminates
ERROR with the recorded error string "". -/
theorem error_handling_counterexample :
    (ScenarioRunner.run cfgRaiseEmpty).result.termination_reason = TerminationReason.ERROR ∧
    (ScenarioRunner.run cfgRaiseEmpty).result.error = some "" := by
  norm_num [ScenarioRunner.run, runLoop, runEvals, cfgRaiseEmpty, ScenarioResult.fresh]

/-- Concrete instantiation of the error-handling theorem: a failed
scene-0 simulate job with an empty job error message yields ERROR, zero
steps and the non-empty fallback message. -/
theorem error_handling_spec_witness :
    (ScenarioRunner.run cfgFailStart).result.termination_reason = TerminationReason.ERROR ∧
    (ScenarioRunner.run cfgFailStart).result.steps = [] ∧
    (ScenarioRunner.run cfgFailStart).result.error = some (runClipMsg (cfgFailStart.clips 0)) ∧
    runClipMsg (cfgFailStart.clips 0) ≠ "" :=
  error_handling_spec.1 cfgFailStart (by decide)

/-- C3: if the remaining budget is exhausted at the top of an iteration
the loop exits TIMEOUT at once - the result is exactly the accumulator
stamped TIMEOUT, with no trace entry added, so the oracle is not
invoked; an oracle call that does not return within the remaining
budget also yields TIMEOUT with no step recorded for that iteration;
and a run whose budget is already exhausted by the scene-0 clip (the
timeout_s-near-zero scenario) with max_steps at least 1 terminates
TIMEOUT with zero steps, strictly fewer than max_steps. -/
theorem timeout_policy :
    (∀ (cfg : RunConfig) (fuel step_idx : ℕ) (elapsed : ℚ) (frame : ℕ)
        (acc : ScenarioResult) (trace : List TraceEntry),
        cfg.scenario.timeout_s - elapsed ≤ 0 →
        runLoop cfg (fuel + 1) step_idx elapsed frame acc trace =
          ⟨{ acc with termination_reason := TerminationReason.TIMEOUT }, elapsed, trace⟩) ∧
    (∀ (cfg : RunConfig) (fuel step_idx : ℕ) (elapsed : ℚ) (frame : ℕ)
        (acc : ScenarioResult) (trace : List TraceEntry),
        0 < cfg.scenario.timeout_s - elapsed →
        cfg.scenario.timeout_s - elapsed < (cfg.vlm step_idx).duration →
        (runLoop cfg (fuel + 1) step_idx elapsed frame acc trace).result.termination_reason =
          TerminationReason.TIMEOUT ∧
        (runLoop cfg (fuel + 1) step_idx elapsed frame acc trace).result.steps = acc.steps) ∧
    (∀ cfg : RunConfig,
        (cfg.clips 0).failed = false →
        cfg.scenario.timeout_s ≤ (cfg.clips 0).duration →
        1 ≤ cfg.scenario.max_steps →
        (ScenarioRunner.run cfg).result.termination_reason = TerminationReason.TIMEOUT ∧
        (ScenarioRunner.run cfg).result.steps.length = 0 ∧
        (ScenarioRunner.run cfg).result.steps.length < cfg.scenario.max_steps) := by
  refine ⟨?_, ?_, ?_⟩
  · intro cfg fuel step_idx elapsed frame acc trace h
    simp only [runLoop]
    rw [if_pos h]
  · intro cfg fuel step_idx elapsed frame acc trace h1 h2
    simp only [runLoop]
    rw [if_neg (not_le.mpr h1), if_pos h2]
    exact ⟨rfl, rfl⟩
  · intro cfg h1 h2 h3
    rw [run_result_ok cfg h1]
    obtain ⟨hs, hr, _, _, _, _⟩ := runEvals_preserves cfg.evals _
    rw [hs, hr]
    obtain ⟨m, hm⟩ : ∃ m, cfg.scenario.max_steps = m + 1 :=
      ⟨cfg.scenario.max_steps - 1, by omega⟩
    rw [hm]
    simp only [runLoop]
    rw [if_pos (sub_nonpos.mpr h2)]
    refine ⟨rfl, ?_, ?_⟩
    · simp [ScenarioResult.fresh]
    · simp [ScenarioResult.fresh]

/-- Concrete instantiation of the timeout theorem: with timeout_s = 0
the loop exits TIMEOUT immediately at the top of the first iteration,
recording zero of the three allowed steps; the same exit, applied
directly to a loop state with 5 seconds already elapsed, returns the
accumulator stamped TIMEOUT untouched. -/
theorem timeout_policy_witness :
    runLoop cfgTimeout 1 0 5 0 (ScenarioResult.fresh cfgTimeout.scenario) [] =
      ⟨{ ScenarioResult.fresh cfgTimeout.scenario with
          termination_reason := TerminationReason.TIMEOUT }, 5, []⟩ ∧
    (ScenarioRunner.run cfgTimeout).result.termination_reason = TerminationReason.TIMEOUT ∧
    (ScenarioRunner.run cfgTimeout).result.steps.length = 0 ∧
    (ScenarioRunner.run cfgTimeout).result.steps.length < cfgTimeout.scenario.max_steps := by
  refine ⟨?_, ?_, ?_, ?_⟩
  · exact timeout_policy.1 cfgTimeout 0 0 5 0 (ScenarioResult.fresh cfgTimeout.scenario) []
      (by norm_num [cfgTimeout])
  · exact (timeout_policy.2.2 cfgTimeout rfl (by norm_num [cfgTimeout]) (by decide)).1
  · exact (timeout_policy.2.2 cfgTimeout rfl (by norm_num [cfgTimeout]) (by decide)).2.1
  · exact (timeout_policy.2.2 cfgTimeout rfl (by norm_num [cfgTimeout]) (by decide)).2.2

/-- C4 (amended): only the Decision Oracle call is suspended under an
explicit timeout bound, and that bound is exactly the shrinking budget
timeout_s minus the elapsed wall-clock at the call (positive, or the
loop would already have exited TIMEOUT); every environment clip
operation - the scene-0 clip wait included - is invoked with no timeout
bound at all, so the runner can wait on the environment for longer than
scenario.timeout_s, budget exhaustion being noticed only at the next
top-of-loop check or bounded oracle call. -/
theorem timeout_bounds_spec :
    ∀ (cfg : RunConfig) (entry : TraceEntry),
      entry ∈ (ScenarioRunner.run cfg).trace → boundedEntry cfg entry := by
  intro cfg entry h
  cases hc : (cfg.clips 0).failed with
  | true =>
      simp only [ScenarioRunner.run] at h
      rw [if_pos hc] at h
      simp only [List.mem_singleton] at h
      rw [h]
      simp [boundedEntry]
  | false =>
      rw [run_trace_ok cfg hc] at h
      rcases runLoop_trace_spec cfg _ _ _ _ _ _ entry h with h1 | h1
      · rw [List.mem_singleton.mp h1]
        simp [boundedEntry]
      · exact h1

/-- Counterexample to C4 as stated: the claim says every suspending
operation, the first clip wait included, is bounded by the scenario's
shrinking time budget so that no run waits beyond timeout_s. In the
code _run_clip polls the simulate job with no timeout bound: a run
whose scene-0 clip takes 100 seconds of wall clock against a 1 second
budget still waits out the whole clip (its suspension-trace entry
carries no bound), and only the next top-of-loop check turns the run
into TIMEOUT - after 100 seconds, not 1. -/
theorem timeout_bounds_counterexample :
    TraceEntry.clipCall none ∈ (ScenarioRunner.run cfgSlowClip).trace ∧
    (ScenarioRunner.run cfgSlowClip).elapsed = 100 ∧
    cfgSlowClip.scenario.timeout_s = 1 ∧
    (ScenarioRunner.run cfgSlowClip).result.termination_reason =
      TerminationReason.TIMEOUT := by
  norm_num [ScenarioRunner.run, runLoop, runEvals, cfgSlowClip, ScenarioResult.fresh]

/-- Concrete instantiation of the bound-discipline theorem: the oracle
call of a run with the default 120 second budget is bounded by exactly
120 - 0 seconds. -/
theorem timeout_bounds_spec_witness :
    boundedEntry cfgDoneNow (TraceEntry.vlmCall (some 120) 0) := by
  refine timeout_bounds_spec cfgDoneNow (TraceEntry.vlmCall (some 120) 0) ?_
  norm_num [ScenarioRunner.run, runLoop, runEvals, cfgDoneNow, doneVLM, ScenarioResult.fresh]

/-- C5: when the oracle never signals done and the run suffers neither
timeout nor exception, the loop runs its full budget: exactly max_steps
steps are recorded and the reason is MAX_STEPS; and with max_steps = 0
the loop body never runs - the for-else fires immediately - so the run
terminates MAX_STEPS with zero steps (given only that the scene-0 clip
succeeds, which precedes the loop). -/
theorem max_steps_termination :
    (∀ cfg : RunConfig,
        (∀ j, (cfg.vlm j).resp.done = false) →
        (ScenarioRunner.run cfg).result.termination_reason ≠ TerminationReason.TIMEOUT →
        (ScenarioRunner.run cfg).result.termination_reason ≠ TerminationReason.ERROR →
        (ScenarioRunner.run cfg).result.termination_reason = TerminationReason.MAX_STEPS ∧
        (ScenarioRunner.run cfg).result.steps.length = cfg.scenario.max_steps) ∧
    (∀ cfg : RunConfig,
        cfg.scenario.max_steps = 0 →
        (cfg.clips 0).failed = false →
        (ScenarioRunner.run cfg).result.termination_reason = TerminationReason.MAX_STEPS ∧
        (ScenarioRunner.run cfg).result.steps = []) := by
  constructor
  · intro cfg hnever hTO hER
    cases hc : (cfg.clips 0).failed with
    | true =>
        rw [run_result_failed cfg hc] at hER
        rw [(runEvals_preserves cfg.evals _).2.1] at hER
        simp at hER
    | false =>
        rw [run_result_ok cfg hc] at hTO hER ⊢
        rw [(runEvals_preserves cfg.evals _).2.1] at hTO hER ⊢
        rw [(runEvals_preserves cfg.evals _).1]
        cases hr : (runLoop cfg cfg.scenario.max_steps 0 (cfg.clips 0).duration
            (cfg.clips 0).frame (ScenarioResult.fresh cfg.scenario)
            [TraceEntry.clipCall none]).result.termination_reason with
        | DONE =>
            obtain ⟨j, _, hd⟩ := runLoop_done_exists cfg _ _ _ _ _ _ hr
            rw [hnever j] at hd
            exact absurd hd (by simp)
        | TIMEOUT => exact absurd hr hTO
        | ERROR => exact absurd hr hER
        | MAX_STEPS =>
            refine ⟨rfl, ?_⟩
            have h := runLoop_maxsteps_len cfg _ _ _ _ _ _ hr
            rw [h]
            simp [ScenarioResult.fresh]
  · intro cfg hms hc
    rw [run_result_ok cfg hc]
    rw [(runEvals_preserves cfg.evals _).2.1, (runEvals_preserves cfg.evals _).1, hms]
    simp [runLoop, ScenarioResult.fresh]

/-- Concrete instantiations of the max-steps theorem: the never-done
two-step run records exactly two steps and terminates MAX_STEPS, and
the max_steps = 0 run records no step and terminates MAX_STEPS. -/
theorem max_steps_termination_witness :
    (ScenarioRunner.run cfgNeverDone).result.termination_reason =
      TerminationReason.MAX_STEPS ∧
    (ScenarioRunner.run cfgNeverDone).result.steps.length =
      cfgNeverDone.scenario.max_steps ∧
    (ScenarioRunner.run cfgZeroSteps).result.termination_reason =
      TerminationReason.MAX_STEPS ∧
    (ScenarioRunner.run cfgZeroSteps).result.steps = [] := by
  have h1 := max_steps_termination.1 cfgNeverDone (fun j => rfl)
    (by norm_num [ScenarioRunner.run, runLoop, runEvals, cfgNeverDone, wanderVLM,
      ScenarioResult.fresh]
        decide)
    (by norm_num [ScenarioRunner.run, runLoop, runEvals, cfgNeverDone, wanderVLM,
      ScenarioResult.fresh]
        decide)
  have h2 := max_steps_termination.2 cfgZeroSteps rfl rfl
  exact ⟨h1.1, h1.2, h2.1, h2.2⟩

/-- C6: if the oracle's first done signal comes on the call for 0-based
step k, the call returns within its bound and nothing else goes wrong,
the run records exactly k + 1 steps, terminates DONE, and the last
recorded step carries the oracle's returned action; nothing but the
bounded call's own return is required of the clock - done takes
priority over the budget for the current step. -/
theorem done_priority (cfg : RunConfig) (k : ℕ) :
    (cfg.clips 0).failed = false →
    k < cfg.scenario.max_steps →
    (∀ j, j < k → (cfg.vlm j).resp.done = false) →
    (cfg.vlm k).resp.done = true →
    (ScenarioRunner.run cfg).result.termination_reason ≠ TerminationReason.TIMEOUT →
    (ScenarioRunner.run cfg).result.termination_reason ≠ TerminationReason.ERROR →
    (ScenarioRunner.run cfg).result.termination_reason = TerminationReason.DONE ∧
    (ScenarioRunner.run cfg).result.steps.length = k + 1 ∧
    (ScenarioRunner.run cfg).result.steps.getLast?.map (fun s => s.action) =
      some (cfg.vlm k).resp.action := by
  intro hc hk hnever hdk hTO hER
  rw [run_result_ok cfg hc] at hTO hER ⊢
  rw [(runEvals_preserves cfg.evals _).2.1] at hTO hER ⊢
  rw [(runEvals_preserves cfg.evals _).1]
  obtain ⟨ha, hb, hcl⟩ := runLoop_done_at cfg k cfg.scenario.max_steps 0
    (cfg.clips 0).duration (cfg.clips 0).frame (ScenarioResult.fresh cfg.scenario)
    [TraceEntry.clipCall none] (Nat.zero_le k) (by omega)
    (fun j _ h2 => hnever j h2) hdk hTO hER
  refine ⟨ha, ?_, ?_⟩
  · rw [hb]
    simp [ScenarioResult.fresh]
  · rw [hcl]
    rfl

/-- Concrete instantiation of the done-priority theorem: the oracle
emits move_forward, pick_up, then done; the run records 3 steps,
terminates DONE, and the third step's action is the done action. -/
theorem done_priority_witness :
    (ScenarioRunner.run cfgDoneAt2).result.termination_reason = TerminationReason.DONE ∧
    (ScenarioRunner.run cfgDoneAt2).result.steps.length = 2 + 1 ∧
    (ScenarioRunner.run cfgDoneAt2).result.steps.getLast?.map (fun s => s.action) =
      some (cfgDoneAt2.vlm 2).resp.action := by
  refine done_priority cfgDoneAt2 2 rfl (by decide) (by decide) rfl ?_ ?_
  · norm_num [ScenarioRunner.run, runLoop, runEvals, cfgDoneAt2, doneVLM,
      ScenarioResult.fresh]
    decide
  · norm_num [ScenarioRunner.run, runLoop, runEvals, cfgDoneAt2, doneVLM,
      ScenarioResult.fresh]
    decide

/-- Counterexample to C7 as stated: the claim says the freshly
initialized result's termination_reason is a non-terminal placeholder,
none of DONE, MAX_STEPS, TIMEOUT or ERROR. models.py defaults
termination_reason to TerminationReason.DONE, a terminal value, and
runner.py line 78 initializes the run's result with exactly that
default. -/
theorem fresh_default_counterexample :
    (ScenarioResult.fresh pickupScenario).termination_reason = TerminationReason.DONE :=
  rfl

/-- C7 (amended): the freshly initialized result of a run defaults its
termination_reason to the terminal value DONE - the enum has no
non-terminal placeholder - but the control loop overwrites it on every
exit path, so a returned run reports DONE only when its oracle actually
signalled done at some step. -/
theorem fresh_default_done_overwritten :
    (∀ s : Scenario, (ScenarioResult.fresh s).termination_reason = TerminationReason.DONE) ∧
    (∀ cfg : RunConfig,
        (ScenarioRunner.run cfg).result.termination_reason = TerminationReason.DONE →
        ∃ j, (cfg.vlm j).resp.done = true) := by
  refine ⟨fun s => rfl, ?_⟩
  intro cfg h
  cases hc : (cfg.clips 0).failed with
  | true =>
      rw [run_result_failed cfg hc] at h
      rw [(runEvals_preserves cfg.evals _).2.1] at h
      simp at h
  | false =>
      rw [run_result_ok cfg hc] at h
      rw [(runEvals_preserves cfg.evals _).2.1] at h
      obtain ⟨j, _, hd⟩ := runLoop_done_exists cfg _ _ _ _ _ _ h
      exact ⟨j, hd⟩

/-- Concrete instantiation of the overwrite direction: a run reporting
DONE had an oracle call that signalled done. -/
theorem fresh_default_done_overwritten_witness :
    ∃ j, (cfgDoneNow.vlm j).resp.done = true :=
  fresh_default_done_overwritten.2 cfgDoneNow
    (by norm_num [ScenarioRunner.run, runLoop, runEvals, cfgDoneNow, doneVLM,
      ScenarioResult.fresh])

end Construct
